import Mathlib

/-!
Shallow embedding of the field-to-profile matching engine of the
autofill-extension repository (src/engine/mapper.js, the confidence scoring
module and the field-mapping rules module), together with theorems settling
the specification claims about it.

Numeric scores are modelled as exact rationals; JS strings are modelled as
Lean strings (lists of characters), with `Char.toLower` standing for the JS
`toLowerCase` (they agree on the ASCII range, which covers every string the
pattern registry and the claims exercise).
-/

namespace Autofill

attribute [local semireducible] Rat.mul Rat.add Rat.sub Rat.inv Rat.ofScientific

set_option maxRecDepth 4000000
set_option maxHeartbeats 4000000

/-- The JS whitespace class: characters matched by the regex class backslash-s
and removed by `String.prototype.trim`. -/
def jsSpace (c : Char) : Bool :=
  c.toNat = 32 || c.toNat = 9 || c.toNat = 10 || c.toNat = 11 || c.toNat = 12 ||
  c.toNat = 13 || c.toNat = 0xa0 || c.toNat = 0x1680 ||
  (0x2000 ≤ c.toNat && c.toNat ≤ 0x200a) || c.toNat = 0x2028 || c.toNat = 0x2029 ||
  c.toNat = 0x202f || c.toNat = 0x205f || c.toNat = 0x3000 || c.toNat = 0xfeff

/-- Characters kept by the regex replace of `[^a-z0-9 backslash-s]` with
the empty string: lower-case ASCII letters and digits. -/
def isLowerAlnum (c : Char) : Bool :=
  (97 ≤ c.toNat && c.toNat ≤ 122) || (48 ≤ c.toNat && c.toNat ≤ 57)

/-- A character that survives the special-character strip of `normalizeText`. -/
def keepChar (c : Char) : Bool :=
  isLowerAlnum c || jsSpace c

/-- `String.prototype.trim`: drop JS whitespace from both ends. -/
def trimChars (l : List Char) : List Char :=
  ((l.dropWhile jsSpace).reverse.dropWhile jsSpace).reverse

/-- The replace of one-or-more whitespace by a single space: each maximal run
of JS whitespace characters becomes one `' '`.  The boolean argument records
whether the previous character was part of a whitespace run. -/
def collapseAux : Bool → List Char → List Char
  | _, [] => []
  | prev, c :: cs =>
    if jsSpace c then
      if prev then collapseAux true cs else ' ' :: collapseAux true cs
    else c :: collapseAux false cs

/-- Whitespace collapsing as performed by `.replace(/\s+/g, ' ')`. -/
def collapseWs (l : List Char) : List Char :=
  collapseAux false l

/-- `normalizeText` on the character list: lower-case, trim, strip characters
outside the keep class, collapse whitespace runs. -/
def normalizeChars (l : List Char) : List Char :=
  collapseWs ((trimChars (l.map Char.toLower)).filter keepChar)

/-- `normalizeText` from the confidence scoring module: the falsy guard
returns the empty string, otherwise the lower-case / trim / strip / collapse
pipeline runs. -/
def normalizeText (s : String) : String :=
  if s = "" then "" else String.mk (normalizeChars s.data)

/-- JS `big.includes(small)` on character lists: `small` occurs contiguously
inside `big`. -/
def hasSubList (sub : List Char) : List Char → Bool
  | [] => sub.isEmpty
  | c :: t => sub.isPrefixOf (c :: t) || hasSubList sub t

/-- JS `big.includes(small)` on strings. -/
def hasSubStr (big small : String) : Bool :=
  hasSubList small.data big.data

/-- One inner cell pass of the Levenshtein dynamic program: the pair list
holds `(b_j, prev_j)` for the remaining columns, `diag` is the previous row
at `j - 1` and `left` the current row at `j - 1`. -/
def levRow (c : Char) : List (Char × Nat) → Nat → Nat → List Nat
  | [], _, _ => []
  | (bj, pj) :: rest, diag, left =>
    let cur := if c = bj then diag else Nat.min (diag + 1) (Nat.min (left + 1) (pj + 1))
    cur :: levRow c rest pj cur

/-- One row step of the Levenshtein dynamic program (`matrix[i]` from
`matrix[i-1]`). -/
def levStep (c : Char) (b : List Char) (prev : List Nat) : List Nat :=
  match prev with
  | [] => []
  | p0 :: ps => (p0 + 1) :: levRow c (b.zip ps) p0 (p0 + 1)

/-- `calculateLevenshteinDistance` from the confidence scoring module: the
classic full-matrix dynamic program, folded row by row. -/
def calculateLevenshteinDistance (a b : List Char) : Nat :=
  (a.foldl (fun prev c => levStep c b prev) (List.range (b.length + 1))).getLastD 0

/-- `scoreFuzzyMatch` from the confidence scoring module: falsy guards, then
normalization, exact match 1.0, substring containment 0.85, otherwise the
edit-distance similarity kept only above the 0.5 threshold. -/
def scoreFuzzyMatch (s1 s2 : String) : ℚ :=
  if s1 = "" || s2 = "" then 0
  else
    let n1 := normalizeText s1
    let n2 := normalizeText s2
    if n1 = "" || n2 = "" then 0
    else if n1 = n2 then 1
    else if hasSubStr n1 n2 || hasSubStr n2 n1 then 17/20
    else
      let d := calculateLevenshteinDistance n1.data n2.data
      let maxLen := Nat.max n1.length n2.length
      if maxLen = 0 then 0
      else
        let sim : ℚ := 1 - (d : ℚ) / (maxLen : ℚ)
        if sim > 1/2 then sim else 0

/-! ## The JavaScript value model

Profile trees are nested objects with string / array-of-string leaves; the
mapper probes them dynamically (`typeof`, `key in`, truthiness), so profile
inputs are modelled as a JS-like value type. -/

/-- A JavaScript runtime value, as far as the engine observes one. -/
inductive JSValue where
  | vNull
  | vUndefined
  | vBool (b : Bool)
  | vNum (q : ℚ)
  | vStr (s : String)
  | vArr (xs : List JSValue)
  | vObj (fields : List (String × JSValue))

mutual

/-- Boolean equality on JS values (the nested inductive blocks deriving). -/
def beqVal : JSValue → JSValue → Bool
  | .vNull, .vNull => true
  | .vUndefined, .vUndefined => true
  | .vBool a, .vBool b => a == b
  | .vNum a, .vNum b => a == b
  | .vStr a, .vStr b => a == b
  | .vArr a, .vArr b => beqValList a b
  | .vObj a, .vObj b => beqFieldList a b
  | _, _ => false

/-- Boolean equality on JS value lists. -/
def beqValList : List JSValue → List JSValue → Bool
  | [], [] => true
  | a :: as, b :: bs => beqVal a b && beqValList as bs
  | _, _ => false

/-- Boolean equality on JS object field lists. -/
def beqFieldList : List (String × JSValue) → List (String × JSValue) → Bool
  | [], [] => true
  | (k1, v1) :: as, (k2, v2) :: bs => k1 == k2 && beqVal v1 v2 && beqFieldList as bs
  | _, _ => false

end

mutual

theorem beqVal_eq : ∀ a b : JSValue, beqVal a b = true → a = b
  | .vNull, .vNull, _ => rfl
  | .vUndefined, .vUndefined, _ => rfl
  | .vBool a, .vBool b, h => by
    simp only [beqVal, beq_iff_eq] at h; exact h ▸ rfl
  | .vNum a, .vNum b, h => by
    simp only [beqVal, beq_iff_eq] at h; exact h ▸ rfl
  | .vStr a, .vStr b, h => by
    simp only [beqVal, beq_iff_eq] at h; exact h ▸ rfl
  | .vArr a, .vArr b, h => by
    rw [beqValList_eq a b (by simpa [beqVal] using h)]
  | .vObj a, .vObj b, h => by
    rw [beqFieldList_eq a b (by simpa [beqVal] using h)]

theorem beqValList_eq : ∀ a b : List JSValue, beqValList a b = true → a = b
  | [], [], _ => rfl
  | a :: as, b :: bs, h => by
    simp only [beqValList, Bool.and_eq_true] at h
    rw [beqVal_eq a b h.1, beqValList_eq as bs h.2]

theorem beqFieldList_eq :
    ∀ a b : List (String × JSValue), beqFieldList a b = true → a = b
  | [], [], _ => rfl
  | (k1, v1) :: as, (k2, v2) :: bs, h => by
    simp only [beqFieldList, Bool.and_eq_true, beq_iff_eq] at h
    rw [h.1.1, beqVal_eq v1 v2 h.1.2, beqFieldList_eq as bs h.2]

end

mutual

theorem beqVal_refl : ∀ a : JSValue, beqVal a a = true
  | .vNull => rfl
  | .vUndefined => rfl
  | .vBool a => by simp [beqVal]
  | .vNum a => by simp [beqVal]
  | .vStr a => by simp [beqVal]
  | .vArr a => by simpa [beqVal] using beqValList_refl a
  | .vObj a => by simpa [beqVal] using beqFieldList_refl a

theorem beqValList_refl : ∀ a : List JSValue, beqValList a a = true
  | [] => rfl
  | a :: as => by
    simp only [beqValList, Bool.and_eq_true]
    exact ⟨beqVal_refl a, beqValList_refl as⟩

theorem beqFieldList_refl : ∀ a : List (String × JSValue), beqFieldList a a = true
  | [] => rfl
  | (k, v) :: as => by
    simp only [beqFieldList, Bool.and_eq_true, beq_self_eq_true, true_and]
    exact ⟨beqVal_refl v, beqFieldList_refl as⟩

end

instance : DecidableEq JSValue := fun a b =>
  if h : beqVal a b = true then isTrue (beqVal_eq a b h)
  else isFalse (fun he => h (he ▸ beqVal_refl a))

namespace JSValue

/-- JS truthiness of a value. -/
def truthy : JSValue → Bool
  | vNull | vUndefined => false
  | vBool b => b
  | vNum q => q != 0
  | vStr s => s != ""
  | vArr _ => true
  | vObj _ => true

/-- `typeof v === "object"` (true for objects, arrays and null). -/
def isObjectType : JSValue → Bool
  | vObj _ | vArr _ | vNull => true
  | _ => false

/-- `typeof v === "string"`. -/
def isStr : JSValue → Bool
  | vStr _ => true
  | _ => false

/-- `typeof v === "number"`. -/
def isNum : JSValue → Bool
  | vNum _ => true
  | _ => false

/-- `Array.isArray(v)`. -/
def isArr : JSValue → Bool
  | vArr _ => true
  | _ => false

/-- `key in v` together with the subsequent `v[key]` access: `some` exactly
when the property exists.  Arrays expose `length` and their index keys. -/
def jsGet : JSValue → String → Option JSValue
  | vObj fs, k => (fs.find? (fun p => p.1 = k)).map (·.2)
  | vArr xs, k =>
    if k = "length" then some (vNum xs.length)
    else match k.toNat? with
      | some i => xs.get? i
      | none => none
  | _, _ => none

end JSValue

open JSValue

/-- Digits-only parse of a character list (none when empty or non-digit). -/
def parseDigits : List Char → Option Nat
  | [] => none
  | l =>
    if l.all Char.isDigit then
      some (l.foldl (fun n c => 10 * n + (c.toNat - 48)) 0)
    else none

/-- JS `ToNumber` on a string, restricted to plain decimal literals with an
optional sign and fraction part (the only shapes profile leaves take);
`none` is NaN.  The empty / all-whitespace string converts to 0. -/
def jsStrToNumber (s : String) : Option ℚ :=
  let t := trimChars s.data
  if t.isEmpty then some 0
  else
    let signed : ℚ × List Char :=
      match t with
      | '-' :: r => (-1, r)
      | '+' :: r => (1, r)
      | r => (1, r)
    let sign := signed.1
    let rest := signed.2
    let ip := rest.takeWhile (fun c => c ≠ '.')
    let rest2 := rest.dropWhile (fun c => c ≠ '.')
    match rest2 with
    | [] => (parseDigits ip).map (fun n => sign * n)
    | _ :: fp =>
      if fp.any (fun c => c = '.') then none
      else if ip.isEmpty && fp.isEmpty then none
      else
        let ipn := if ip.isEmpty then some 0 else parseDigits ip
        let fpn := if fp.isEmpty then some 0 else parseDigits fp
        match ipn, fpn with
        | some i, some fr => some (sign * ((i : ℚ) + (fr : ℚ) / (10 ^ fp.length)))
        | _, _ => none

/-- Schematic rendering of a rational for JS string conversion; profile
leaves that reach a string conversion are strings or integers, so only the
integer case is ever exercised. -/
def ratDisplay (q : ℚ) : String :=
  if q.den = 1 then toString q.num else toString q

mutual

/-- JS `String(v)` for the values the engine can encounter. -/
def jsStringOf : JSValue → String
  | .vStr s => s
  | .vNum q => ratDisplay q
  | .vBool b => cond b "true" "false"
  | .vNull => "null"
  | .vUndefined => "undefined"
  | .vObj _ => "[object Object]"
  | .vArr xs => String.intercalate "," (jsJoinList xs)

/-- Element rendering of `Array.prototype.join`: null and undefined render
as the empty string, other elements via `String(v)`. -/
def jsJoinList : List JSValue → List String
  | [] => []
  | .vNull :: vs => "" :: jsJoinList vs
  | .vUndefined :: vs => "" :: jsJoinList vs
  | v :: vs => jsStringOf v :: jsJoinList vs

end

/-- JS `ToNumber`, as probed by the `isNaN` call of the type validator;
`none` is NaN. -/
def jsToNumber : JSValue → Option ℚ
  | .vNull => some 0
  | .vUndefined => none
  | .vBool b => some (cond b 1 0)
  | .vNum q => some q
  | .vStr s => jsStrToNumber s
  | .vArr xs => jsStrToNumber (String.intercalate "," (jsJoinList xs))
  | .vObj _ => none

/-! ## Pattern registry (rules module) -/

/-- One entry of the static pattern table: candidate phrases, accepted input
types, weight. -/
structure PatternRule where
  patterns : List String
  fieldTypes : Option (List String)
  weight : ℚ
deriving DecidableEq

/-- `FIELD_PATTERNS` from the rules module, in declaration order (JS object
string keys enumerate in insertion order). -/
def FIELD_PATTERNS : List (String × PatternRule) := [
  ("profile.personal.firstName",
    ⟨["first name", "first", "fname", "given name", "forename"], some ["text"], 1⟩),
  ("profile.personal.lastName",
    ⟨["last name", "last", "lname", "surname", "family name"], some ["text"], 1⟩),
  ("profile.personal.email",
    ⟨["email", "email address", "e-mail", "mail"], some ["email", "text"], 1⟩),
  ("profile.personal.phone",
    ⟨["phone", "phone number", "mobile", "telephone", "cell", "contact number"], some ["tel", "text"], 1⟩),
  ("profile.personal.address",
    ⟨["address", "street", "street address", "address line", "location"], some ["text", "textarea"], 1⟩),
  ("profile.personal.city",
    ⟨["city", "town"], some ["text"], 1⟩),
  ("profile.personal.state",
    ⟨["state", "province", "region"], some ["text", "select"], 1⟩),
  ("profile.personal.zipCode",
    ⟨["zip", "zip code", "postal code", "postcode", "postal"], some ["text", "number"], 1⟩),
  ("profile.personal.country",
    ⟨["country", "nation"], some ["text", "select"], 1⟩),
  ("profile.education.degree",
    ⟨["degree", "qualification", "education level", "highest degree"], some ["text", "select"], 1⟩),
  ("profile.education.major",
    ⟨["major", "field of study", "specialization", "subject", "area of study"], some ["text"], 1⟩),
  ("profile.education.university",
    ⟨["university", "college", "school", "institution", "alma mater"], some ["text"], 1⟩),
  ("profile.education.graduationYear",
    ⟨["graduation year", "grad year", "year of graduation", "graduation date"], some ["text", "number", "date"], 1⟩),
  ("profile.education.gpa",
    ⟨["gpa", "grade point average", "grades", "cgpa"], some ["text", "number"], 1⟩),
  ("profile.experience.currentRole",
    ⟨["current role", "job title", "position", "role", "current position", "title"], some ["text"], 1⟩),
  ("profile.experience.currentCompany",
    ⟨["company", "employer", "organization", "current company", "current employer"], some ["text"], 1⟩),
  ("profile.experience.yearsOfExperience",
    ⟨["years of experience", "experience", "years", "work experience", "total experience"], some ["text", "number"], 1⟩),
  ("profile.experience.skills",
    ⟨["skills", "technical skills", "expertise", "competencies", "abilities"], some ["text", "textarea"], 1⟩),
  ("profile.links.linkedin",
    ⟨["linkedin", "linkedin url", "linkedin profile", "linkedin link"], some ["url", "text"], 1⟩),
  ("profile.links.github",
    ⟨["github", "github url", "github profile", "github link"], some ["url", "text"], 1⟩),
  ("profile.links.portfolio",
    ⟨["portfolio", "portfolio url", "portfolio link", "work samples"], some ["url", "text"], 1⟩),
  ("profile.links.website",
    ⟨["website", "personal website", "url", "web page", "homepage"], some ["url", "text"], 1⟩),
  ("profile.documents.resume",
    ⟨["resume", "cv", "curriculum vitae", "upload resume", "attach resume"], some ["file"], 1⟩)]

/-- `NEGATIVE_KEYWORDS` from the rules module. -/
def NEGATIVE_KEYWORDS : List (String × List String) := [
  ("profile.personal.firstName", ["last", "surname", "family"]),
  ("profile.personal.lastName", ["first", "given", "forename"]),
  ("profile.personal.email", ["phone", "mobile", "address"]),
  ("profile.personal.phone", ["email", "mail"]),
  ("profile.personal.address", ["email", "phone"]),
  ("profile.education.degree", ["major", "university", "year"]),
  ("profile.education.major", ["degree", "university", "year"]),
  ("profile.education.university", ["degree", "major", "year"]),
  ("profile.experience.currentRole", ["company", "employer"]),
  ("profile.experience.currentCompany", ["role", "title", "position"]),
  ("profile.links.linkedin", ["github", "portfolio"]),
  ("profile.links.github", ["linkedin", "portfolio"]),
  ("profile.links.portfolio", ["linkedin", "github"])]

/-- `getAllProfilePaths`: the registry keys in declaration order. -/
def getAllProfilePaths : List String :=
  FIELD_PATTERNS.map (·.1)

/-- `getPatternForPath`: lookup in the pattern table. -/
def getPatternForPath (profilePath : String) : Option PatternRule :=
  (FIELD_PATTERNS.find? (fun p => p.1 = profilePath)).map (·.2)

/-- `getNegativeKeywords`: lookup with empty-list default. -/
def getNegativeKeywords (profilePath : String) : List String :=
  ((NEGATIVE_KEYWORDS.find? (fun p => p.1 = profilePath)).map (·.2)).getD []

/-! ## Confidence calculator -/

/-- The four field attributes consulted by the scorer. -/
inductive MatchAttr where
  | label
  | placeholder
  | name
  | ariaLabel
deriving DecidableEq

/-- A form field descriptor as delivered by the scanner.  Attributes the
scanner did not find are the empty string: every consumer reads them through
a falsy-coalescing `|| ""`, under which the empty string and an absent
property are indistinguishable. -/
structure FormField where
  id : String
  name : String
  label : String
  placeholder : String
  ariaLabel : String
  ftype : String
  selector : String
deriving DecidableEq

/-- `formField[matchType] || ""`. -/
def attrText (f : FormField) : MatchAttr → String
  | .label => f.label
  | .placeholder => f.placeholder
  | .name => f.name
  | .ariaLabel => f.ariaLabel

/-- The fixed attribute weights of `scoreMatch`. -/
def attrWeight : MatchAttr → ℚ
  | .label => 1/2
  | .placeholder => 3/10
  | .name => 3/20
  | .ariaLabel => 1/20

/-- `scoreMatch`: best fuzzy score of the attribute text over the rule's
phrases, multiplied by the attribute weight. -/
def scoreMatch (f : FormField) (pattern : PatternRule) (attr : MatchAttr) : ℚ :=
  let text := attrText f attr
  if text = "" then 0
  else
    (pattern.patterns.foldl
      (fun bestScore p =>
        let score := scoreFuzzyMatch text p
        if score > bestScore then score else bestScore) 0) * attrWeight attr

/-- Result of `calculateConfidence` (the diagnostic `details` member is
dropped: nothing downstream reads it). -/
structure ConfidenceResult where
  score : ℚ
  matchedOn : Option MatchAttr
deriving DecidableEq

/-- JS `toLowerCase` on a whole string. -/
def lowerStr (s : String) : String :=
  String.mk (s.data.map Char.toLower)

/-- The lower-cased `label + " " + placeholder + " " + name` concatenation
scanned for negative keywords. -/
def allFieldText (f : FormField) : String :=
  lowerStr (f.label ++ " " ++ f.placeholder ++ " " ++ f.name)

/-- `calculateConfidence`: negative-keyword veto first (the source loop
returns the same record at its first hit, so an any-test is equivalent),
then the weighted per-attribute scores, their capped sum, and the
highest-priority attribute above its reporting threshold. -/
def calculateConfidence (f : FormField) (pattern : PatternRule)
    (negativeKeywords : List String) : ConfidenceResult :=
  if negativeKeywords.any (fun kw => hasSubStr (allFieldText f) (lowerStr kw)) then
    ⟨0, none⟩
  else
    let labelScore := scoreMatch f pattern .label
    let placeholderScore := scoreMatch f pattern .placeholder
    let nameScore := scoreMatch f pattern .name
    let ariaScore := scoreMatch f pattern .ariaLabel
    let totalScore := labelScore + placeholderScore + nameScore + ariaScore
    let matchedOn : Option MatchAttr :=
      if labelScore > 2/5 then some .label
      else if placeholderScore > 1/5 then some .placeholder
      else if nameScore > 1/10 then some .name
      else if ariaScore > 0 then some .ariaLabel
      else none
    ⟨min totalScore 1, matchedOn⟩

/-! ## Field mapper -/

/-- `path.split(".")` on the character list. -/
def splitOnDotChars : List Char → List (List Char)
  | [] => [[]]
  | c :: t =>
    if c = '.' then [] :: splitOnDotChars t
    else
      match splitOnDotChars t with
      | h :: t2 => (c :: h) :: t2
      | [] => [[c]]

/-- `profilePath.split(".")`. -/
def splitOnDot (s : String) : List String :=
  (splitOnDotChars s.data).map String.mk

/-- `getProfileFieldValue`: walk the dotted path guarded by truthiness,
`typeof === "object"` and `key in`; any failure returns null. -/
def walkPath : JSValue → List String → JSValue
  | v, [] => v
  | v, key :: keys =>
    if v.truthy && v.isObjectType then
      match v.jsGet key with
      | some v2 => walkPath v2 keys
      | none => .vNull
    else .vNull

/-- `getProfileFieldValue` on a dotted path string. -/
def getProfileFieldValue (profile : JSValue) (profilePath : String) : JSValue :=
  walkPath profile (splitOnDot profilePath)

/-- `validateFieldType`: the priority-ordered compatibility chain of the
mapper module. -/
def validateFieldType (formField : FormField) (profilePath : String)
    (profileValue : JSValue) : Bool :=
  match profileValue with
  | .vNull | .vUndefined => false
  | v =>
    if formField.ftype = "email" && hasSubStr profilePath "email" then
      match v with
      | .vStr s => hasSubStr s "@"
      | _ => false
    else if formField.ftype = "tel" && hasSubStr profilePath "phone" then
      v.isStr
    else if formField.ftype = "number" then
      (jsToNumber v).isSome
    else if formField.ftype = "url" then
      match v with
      | .vStr s => "http://".isPrefixOf s || "https://".isPrefixOf s
      | _ => false
    else if formField.ftype = "file" && hasSubStr profilePath "resume" then
      true
    else if formField.ftype = "select" || formField.ftype = "select-one" then
      match v with
      | .vStr s => s.length > 0
      | _ => false
    else if formField.ftype = "textarea" then
      v.isStr || v.isArr
    else
      v.isStr || v.isNum

/-- One accepted field-to-profile pairing. -/
structure FieldMatch where
  formFieldId : String
  formFieldSelector : String
  formFieldLabel : String
  formFieldType : String
  profilePath : String
  profileValue : JSValue
  confidence : ℚ
  matchedOn : Option MatchAttr
  requiresReview : Bool
deriving DecidableEq

/-- The `label || placeholder || name` display-label fallback chain. -/
def displayLabel (f : FormField) : String :=
  if f.label ≠ "" then f.label
  else if f.placeholder ≠ "" then f.placeholder
  else f.name

/-- Array leaves are rendered as a comma-joined string for display; other
values pass through. -/
def displayValue : JSValue → JSValue
  | .vArr xs => .vStr (String.intercalate ", " (jsJoinList xs))
  | v => v

/-- One iteration of the `matchField` loop body over a candidate profile
path, threading the running best match and best score. -/
def matchStep (f : FormField) (profile : JSValue)
    (acc : Option FieldMatch × ℚ) (profilePath : String) : Option FieldMatch × ℚ :=
  match getPatternForPath profilePath with
  | none => acc
  | some pattern =>
    if (match pattern.fieldTypes with
        | some ts => !(ts.contains f.ftype)
        | none => false) then acc
    else
      let confidenceResult := calculateConfidence f pattern (getNegativeKeywords profilePath)
      let finalScore := confidenceResult.score * pattern.weight
      if finalScore > acc.2 then
        let profileValue := getProfileFieldValue profile profilePath
        if !(validateFieldType f profilePath profileValue) then acc
        else if profileValue = .vNull ∨ profileValue = .vUndefined ∨ profileValue = .vStr "" then acc
        else
            (some {
              formFieldId := f.id
              formFieldSelector := f.selector
              formFieldLabel := displayLabel f
              formFieldType := f.ftype
              profilePath := profilePath
              profileValue := displayValue profileValue
              confidence := finalScore
              matchedOn := confidenceResult.matchedOn
              requiresReview := finalScore < 4/5 }, finalScore)
      else acc

/-- `matchField`: scan every registry path in declaration order, keeping the
running best on a strictly greater score. -/
def matchField (f : FormField) (profile : JSValue) : Option FieldMatch :=
  (getAllProfilePaths.foldl (matchStep f profile) (none, 0)).1

/-! ## Mapping orchestrator -/

/-- One scanned form: captcha flag, scanner-assigned type, fields. -/
structure ScannedForm where
  id : String
  hasCaptcha : Bool
  ftype : String
  fields : List FormField
deriving DecidableEq

/-- The scanned-forms input object; `forms := none` models an absent or
null `forms` member (an empty list is truthy in JS and passes the guard). -/
structure FormData where
  url : String
  forms : Option (List ScannedForm)
deriving DecidableEq

/-- An entry of `unmatchedFormFields`. -/
structure UnmatchedField where
  id : String
  label : String
  ftype : String
  selector : String
deriving DecidableEq

/-- An entry of `unmatchedProfileFields`. -/
structure UnmatchedProfileField where
  path : String
  value : JSValue
deriving DecidableEq

/-- The mapping report.  The wall-clock `timestamp` bookkeeping member is
omitted from the model. -/
structure MappingReport where
  «matches» : List FieldMatch
  unmatchedFormFields : List UnmatchedField
  unmatchedProfileFields : List UnmatchedProfileField
  overallConfidence : ℚ
  requiresReview : Bool
  url : String
  error : Option String
deriving DecidableEq

/-- JS `Math.round`: nearest integer, halves toward positive infinity. -/
def jsRound (q : ℚ) : ℤ :=
  ⌊q + 1/2⌋

/-- `Math.round(q * 100) / 100`. -/
def roundTo2 (q : ℚ) : ℚ :=
  (jsRound (q * 100) : ℚ) / 100

/-- The record pushed onto `unmatchedFormFields` for a field that found no
accepted match. -/
def unmatchedEntry (f : FormField) : UnmatchedField :=
  ⟨f.id, displayLabel f, f.ftype, f.selector⟩

/-- The form-level exclusion of the orchestrator loop: captcha-flagged forms
and Google-Forms iframes are skipped. -/
def eligibleForms (forms : List ScannedForm) : List ScannedForm :=
  forms.filter (fun form => !form.hasCaptcha && form.ftype ≠ "google-forms")

/-- The guard of `unmatchedProfileFields`: value not null, not undefined,
not the empty string, and not an empty array. -/
def profileValuePresent : JSValue → Bool
  | .vNull | .vUndefined | .vStr "" => false
  | .vArr xs => !xs.isEmpty
  | _ => true

/-- The flagged empty report returned for malformed input. -/
def invalidReport (url : String) : MappingReport :=
  { «matches» := []
    unmatchedFormFields := []
    unmatchedProfileFields := []
    overallConfidence := 0
    requiresReview := true
    url := url
    error := some "Invalid input data" }

/-- `mapProfileToForm`: input validation, per-field matching with the 0.6
acceptance threshold, leftover-profile collection, aggregate confidence.
The three falsy guards of the source (`!profile || !formData ||
!formData.forms`) all return the same flagged report, so the order of the
case split does not matter. -/
def mapProfileToForm (profile : JSValue) (formData : Option FormData) : MappingReport :=
  match formData with
  | none => invalidReport ""
  | some fd =>
    match fd.forms with
    | none => invalidReport fd.url
    | some forms =>
      if !profile.truthy then invalidReport fd.url
      else
        let fields := (eligibleForms forms).flatMap (·.fields)
        let «matches» := fields.filterMap (fun f =>
          match matchField f profile with
          | some m => if m.confidence ≥ 3/5 then some m else none
          | none => none)
        let unmatchedFormFields := fields.filterMap (fun f =>
          match matchField f profile with
          | some m => if m.confidence ≥ 3/5 then none else some (unmatchedEntry f)
          | none => some (unmatchedEntry f))
        let usedProfilePaths := «matches».map (·.profilePath)
        let unmatchedProfileFields := getAllProfilePaths.filterMap (fun path =>
          if usedProfilePaths.contains path then none
          else
            let value := getProfileFieldValue profile path
            if profileValuePresent value then
              some ⟨path, displayValue value⟩
            else none)
        let overallConfidence : ℚ :=
          if «matches».length > 0 then
            («matches».map (·.confidence)).sum / «matches».length
          else 0
        { «matches» := «matches»
          unmatchedFormFields := unmatchedFormFields
          unmatchedProfileFields := unmatchedProfileFields
          overallConfidence := roundTo2 overallConfidence
          requiresReview := «matches».any (·.requiresReview) || overallConfidence < 4/5
          url := fd.url
          error := none }


/-! ## Statement-support definitions -/

/-- The similarity scorer of the specification, in the spec's own case
order: normalize both, empty gives 0, equality 1, containment 0.85,
otherwise the edit-distance similarity with results at or below 0.5
replaced by 0. -/
def similaritySpec (s1 s2 : String) : ℚ :=
  let n1 := normalizeText s1
  let n2 := normalizeText s2
  if n1 = "" ∨ n2 = "" then 0
  else if n1 = n2 then 1
  else if hasSubStr n1 n2 || hasSubStr n2 n1 then 17/20
  else
    let sim : ℚ := 1 - (calculateLevenshteinDistance n1.data n2.data : ℚ) /
      (Nat.max n1.length n2.length : ℚ)
    if sim ≤ 1/2 then 0 else sim

/-- `String.prototype.trim` on a whole string. -/
def trimString (s : String) : String :=
  String.mk (trimChars s.data)

/-- The malformed-input guard of the orchestrator:
`!profile || !formData || !formData.forms`. -/
def malformedInput (profile : JSValue) (formData : Option FormData) : Bool :=
  !profile.truthy ||
    (match formData with
     | none => true
     | some fd => fd.forms.isNone)

/-- The invariant every returned best match of `matchField` satisfies: its
review flag mirrors the 0.8 threshold, its resolved profile value passed the
type validator, is neither null nor undefined nor the empty string, and its
stored value is the display rendering of the resolved value. -/
def goodMatch (f : FormField) (profile : JSValue) (m : FieldMatch) : Prop :=
  m.requiresReview = decide (m.confidence < 4/5) ∧
  validateFieldType f m.profilePath (getProfileFieldValue profile m.profilePath) = true ∧
  getProfileFieldValue profile m.profilePath ≠ .vNull ∧
  getProfileFieldValue profile m.profilePath ≠ .vUndefined ∧
  getProfileFieldValue profile m.profilePath ≠ .vStr "" ∧
  m.profileValue = displayValue (getProfileFieldValue profile m.profilePath)

/-! ## Concrete inputs used by witnesses and counterexamples -/

/-- A profile with a first name and an email address. -/
def pJohn : JSValue :=
  .vObj [("profile", .vObj [("personal",
    .vObj [("firstName", .vStr "John"), ("email", .vStr "john@x.com")])])]

/-- A first-name field whose label and name both match exactly
(confidence 0.65). -/
def fieldFirstName : FormField :=
  { id := "f1", name := "fname", label := "First Name", placeholder := "",
    ariaLabel := "", ftype := "text", selector := "#f1" }

/-- A second field identical in everything but identity to
`fieldFirstName`. -/
def fieldFirstName2 : FormField :=
  { id := "f1b", name := "fname", label := "First Name", placeholder := "",
    ariaLabel := "", ftype := "text", selector := "#f1b" }

/-- An email field with exact label and placeholder (confidence 0.8). -/
def fieldEmail : FormField :=
  { id := "f2", name := "", label := "Email", placeholder := "email",
    ariaLabel := "", ftype := "email", selector := "#f2" }

/-- A field tuned so the first-name rule scores exactly 0.6: label at fuzzy
similarity 0.9 (weighted 0.45) plus an exact name match (0.15). -/
def fieldBoundary : FormField :=
  { id := "f3", name := "fname", label := "firsu name", placeholder := "",
    ariaLabel := "", ftype := "text", selector := "#f3" }

/-- A field tuned so every attribute sits exactly at its reporting
threshold: label similarity 0.8 (weighted 0.4), placeholder and name
similarity two thirds (weighted 0.2 and 0.1), total 0.7. -/
def fieldAllAtThreshold : FormField :=
  { id := "f4", name := "fixrsy", label := "firso", placeholder := "fixrsy",
    ariaLabel := "", ftype := "text", selector := "#f4" }

/-- A profile whose skills leaf is the empty array. -/
def pSkillsEmpty : JSValue :=
  .vObj [("profile", .vObj [("experience", .vObj [("skills", .vArr [])])])]

/-- A textarea field labeled Skills. -/
def fieldSkills : FormField :=
  { id := "f5", name := "", label := "Skills", placeholder := "",
    ariaLabel := "", ftype := "textarea", selector := "#f5" }

/-- The specification's veto example: a first-name label containing the
negative keyword last. -/
def fieldVeto : FormField :=
  { id := "f6", name := "", label := "First Name (of spouse last employer)",
    placeholder := "", ariaLabel := "", ftype := "text", selector := "#f6" }

/-- A one-form scan with the first-name and email fields. -/
def fdPair : FormData :=
  { url := "https://jobs.example/apply",
    forms := some [{ id := "form1", hasCaptcha := false, ftype := "standard",
                     fields := [fieldFirstName, fieldEmail] }] }

/-- A one-form scan with two interchangeable first-name fields. -/
def fdDup : FormData :=
  { url := "https://jobs.example/apply",
    forms := some [{ id := "form1", hasCaptcha := false, ftype := "standard",
                     fields := [fieldFirstName, fieldFirstName2] }] }

/-- A one-form scan with only the first-name field. -/
def fdSingle : FormData :=
  { url := "https://jobs.example/apply",
    forms := some [{ id := "form1", hasCaptcha := false, ftype := "standard",
                     fields := [fieldFirstName] }] }

/-- A one-form scan with only the boundary-tuned field. -/
def fdBoundary : FormData :=
  { url := "https://jobs.example/apply",
    forms := some [{ id := "form1", hasCaptcha := false, ftype := "standard",
                     fields := [fieldBoundary] }] }

/-- The match `matchField` computes for `fieldFirstName` against `pJohn`. -/
def mFirstName : FieldMatch :=
  { formFieldId := "f1", formFieldSelector := "#f1", formFieldLabel := "First Name",
    formFieldType := "text", profilePath := "profile.personal.firstName",
    profileValue := .vStr "John", confidence := 13/20, matchedOn := some .label,
    requiresReview := true }

/-- The match `matchField` computes for `fieldEmail` against `pJohn`. -/
def mEmail : FieldMatch :=
  { formFieldId := "f2", formFieldSelector := "#f2", formFieldLabel := "Email",
    formFieldType := "email", profilePath := "profile.personal.email",
    profileValue := .vStr "john@x.com", confidence := 4/5, matchedOn := some .label,
    requiresReview := false }

/-- The match `matchField` computes for `fieldBoundary` against `pJohn`:
confidence exactly 0.6. -/
def mBoundary : FieldMatch :=
  { formFieldId := "f3", formFieldSelector := "#f3", formFieldLabel := "firsu name",
    formFieldType := "text", profilePath := "profile.personal.firstName",
    profileValue := .vStr "John", confidence := 3/5, matchedOn := some .label,
    requiresReview := true }

/-- The match `matchField` computes for `fieldAllAtThreshold` against
`pJohn`: confidence 0.7 with no reported attribute. -/
def mAllAtThreshold : FieldMatch :=
  { formFieldId := "f4", formFieldSelector := "#f4", formFieldLabel := "firso",
    formFieldType := "text", profilePath := "profile.personal.firstName",
    profileValue := .vStr "John", confidence := 7/10, matchedOn := none,
    requiresReview := true }

/-- The match `matchField` computes for `fieldSkills` against
`pSkillsEmpty`: the empty-array leaf is not aborted and is rendered as the
empty string. -/
def mSkills : FieldMatch :=
  { formFieldId := "f5", formFieldSelector := "#f5", formFieldLabel := "Skills",
    formFieldType := "textarea", profilePath := "profile.experience.skills",
    profileValue := .vStr "", confidence := 1/2, matchedOn := some .label,
    requiresReview := true }

/-- The leftover-profile entry for the email path of `pJohn`. -/
def uEmail : UnmatchedProfileField :=
  { path := "profile.personal.email", value := .vStr "john@x.com" }

/-! ## Theorems -/


/-- A string is empty exactly when its character list is. -/
theorem string_eq_empty_iff (s : String) : s = "" ↔ s.data = [] :=
  ⟨fun h => congrArg String.data h, fun h => congrArg String.mk h⟩

/-- A non-empty string has positive length. -/
theorem length_pos_of_ne_empty {s : String} (h : s ≠ "") : 0 < s.length := by
  cases s with
  | mk d =>
    cases d with
    | nil => exact absurd rfl h
    | cons c cs => exact Nat.succ_pos cs.length

/-- Reversing the orientation of the one-half threshold branch. -/
theorem ite_half_flip (x : ℚ) : (if x > 1/2 then x else 0) = if x ≤ 1/2 then 0 else x := by
  rcases le_or_lt x (1/2) with h | h
  · rw [if_neg (not_lt.mpr h), if_pos h]
  · rw [if_pos h, if_neg (not_le.mpr h)]

/-- Normalizing the empty string yields the empty string. -/
theorem normalizeText_empty : normalizeText "" = "" := rfl

/-- C7: for every pair of strings, `scoreFuzzyMatch` computes exactly the
specification's case order: empty normalization 0, canonical equality 1.0,
substring containment 0.85, otherwise one minus the edit distance over the
longer normalized length, replaced by 0 when that similarity is at most
0.5. -/
theorem scoreFuzzyMatch_eq_similaritySpec (s1 s2 : String) :
    scoreFuzzyMatch s1 s2 = similaritySpec s1 s2 := by
  simp only [scoreFuzzyMatch, similaritySpec]
  by_cases h1 : s1 = ""
  · subst h1
    simp [normalizeText_empty]
  by_cases h2 : s2 = ""
  · subst h2
    simp [normalizeText_empty]
  rw [if_neg (by simp [h1, h2])]
  by_cases hn1 : normalizeText s1 = ""
  · simp [hn1]
  by_cases hn2 : normalizeText s2 = ""
  · simp [hn1, hn2]
  rw [if_neg (by simp [hn1, hn2]),
    if_neg (by simp [hn1, hn2] : ¬(normalizeText s1 = "" ∨ normalizeText s2 = ""))]
  by_cases heq : normalizeText s1 = normalizeText s2
  · rw [if_pos heq, if_pos heq]
  rw [if_neg heq, if_neg heq]
  by_cases hsub : (hasSubStr (normalizeText s1) (normalizeText s2) ||
      hasSubStr (normalizeText s2) (normalizeText s1)) = true
  · rw [if_pos hsub, if_pos hsub]
  rw [if_neg hsub, if_neg hsub]
  have hmax : ¬(Nat.max (normalizeText s1).length (normalizeText s2).length = 0) := by
    have := length_pos_of_ne_empty hn1
    rw [Nat.max_eq_zero_iff]
    omega
  rw [if_neg hmax]
  exact ite_half_flip _

/-- C9: the similarity scorer's range has a gap: every result is either
exactly 0 or strictly greater than one half. -/
theorem scoreFuzzyMatch_gap (s1 s2 : String) :
    scoreFuzzyMatch s1 s2 = 0 ∨ 1/2 < scoreFuzzyMatch s1 s2 := by
  simp only [scoreFuzzyMatch]
  split
  · exact Or.inl rfl
  · split
    · exact Or.inl rfl
    · split
      · exact Or.inr (by norm_num)
      · split
        · exact Or.inr (by norm_num)
        · split
          · exact Or.inl rfl
          · split
            · next hgt => exact Or.inr hgt
            · exact Or.inl rfl

/-- C6: the negative-keyword veto is absolute: whenever one of the rule's
negative keywords occurs in the lower-cased concatenation of the field's
label, placeholder and name, `calculateConfidence` returns score 0 with no
matched attribute, whatever the pattern's phrases are. -/
theorem calculateConfidence_veto (f : FormField) (pattern : PatternRule)
    (negativeKeywords : List String) (kw : String)
    (hmem : kw ∈ negativeKeywords)
    (hsub : hasSubStr (allFieldText f) (lowerStr kw) = true) :
    calculateConfidence f pattern negativeKeywords = ⟨0, none⟩ := by
  unfold calculateConfidence
  rw [if_pos (List.any_eq_true.mpr ⟨kw, hmem, hsub⟩)]

/-- Witness for C6: the specification's example field, vetoed by the
keyword last of the first-name rule, against the first-name pattern. -/
theorem calculateConfidence_veto_witness :
    calculateConfidence fieldVeto
      ⟨["first name", "first", "fname", "given name", "forename"], some ["text"], 1⟩
      (getNegativeKeywords "profile.personal.firstName") = ⟨0, none⟩ :=
  calculateConfidence_veto _ _ _ "last" (by decide) (by decide)

/-- Invariants preserved by a left fold hold of its result. -/
theorem foldl_preserves {α β : Type} (P : β → Prop) (step : β → α → β)
    (hstep : ∀ b a, P b → P (step b a)) :
    ∀ (l : List α) (b : β), P b → P (l.foldl step b)
  | [], _, hb => hb
  | a :: l, b, hb => foldl_preserves P step hstep l (step b a) (hstep b a hb)

/-- One `matchField` loop step preserves the best-match invariant. -/
theorem matchStep_good (f : FormField) (profile : JSValue)
    (acc : Option FieldMatch × ℚ) (profilePath : String)
    (hacc : ∀ m, acc.1 = some m → goodMatch f profile m) :
    ∀ m, (matchStep f profile acc profilePath).1 = some m → goodMatch f profile m := by
  intro m hm
  unfold matchStep at hm
  rcases hpat : getPatternForPath profilePath with _ | pattern
  · rw [hpat] at hm; exact hacc m hm
  · rw [hpat] at hm
    simp only at hm
    split at hm
    · exact hacc m hm
    · split at hm
      · split at hm
        · exact hacc m hm
        · split at hm
          · exact hacc m hm
          · next hval hempty =>
            simp only [Prod.fst] at hm
            cases hm
            push_neg at hempty
            refine ⟨rfl, ?_, hempty.1, hempty.2.1, hempty.2.2, rfl⟩
            simpa using hval
      · exact hacc m hm

/-- Every match returned by `matchField` satisfies the best-match
invariant. -/
theorem matchField_good (f : FormField) (profile : JSValue) (m : FieldMatch)
    (hm : matchField f profile = some m) : goodMatch f profile m := by
  unfold matchField at hm
  have := foldl_preserves
    (fun acc : Option FieldMatch × ℚ => ∀ m, acc.1 = some m → goodMatch f profile m)
    (matchStep f profile)
    (fun acc path hacc => matchStep_good f profile acc path hacc)
    getAllProfilePaths (none, 0) (fun m h => by cases h)
  exact this m hm

/-- C3: counterexample — the normalizer is not idempotent: in
`normalizeText "a !"` the trim runs before the special-character strip, so
stripping the exclamation mark leaves a trailing space that only a second
pass removes. -/
theorem normalizeText_not_idempotent :
    normalizeText "a !" = "a " ∧ normalizeText (normalizeText "a !") = "a" ∧
    normalizeText (normalizeText "a !") ≠ normalizeText "a !" :=
  ⟨by decide, by decide, by decide⟩

/-- C2: counterexample — a resolved profile value that is the empty array is
not aborted: `matchField` returns it as the best match for a textarea
Skills field, rendered as the empty string. -/
theorem matchField_empty_array_not_aborted :
    matchField fieldSkills pSkillsEmpty = some mSkills ∧
    getProfileFieldValue pSkillsEmpty "profile.experience.skills" = .vArr [] ∧
    mSkills.profileValue = .vStr "" :=
  ⟨rfl, rfl, rfl⟩

/-- C2 amended: `matchField` returns a FieldMatch only if the resolved
profile value is type-compatible and neither null, undefined nor the empty
string; the empty array is not excluded (it passes the guards and is
rendered as the empty string). -/
theorem matchField_value_guard (f : FormField) (profile : JSValue) (m : FieldMatch)
    (hm : matchField f profile = some m) :
    validateFieldType f m.profilePath (getProfileFieldValue profile m.profilePath) = true ∧
    getProfileFieldValue profile m.profilePath ≠ .vNull ∧
    getProfileFieldValue profile m.profilePath ≠ .vUndefined ∧
    getProfileFieldValue profile m.profilePath ≠ .vStr "" :=
  let g := matchField_good f profile m hm
  ⟨g.2.1, g.2.2.1, g.2.2.2.1, g.2.2.2.2.1⟩

/-- Witness for the amended C2, at the first-name field of `pJohn`. -/
theorem matchField_value_guard_witness :
    validateFieldType fieldFirstName mFirstName.profilePath
        (getProfileFieldValue pJohn mFirstName.profilePath) = true ∧
    getProfileFieldValue pJohn mFirstName.profilePath ≠ .vNull ∧
    getProfileFieldValue pJohn mFirstName.profilePath ≠ .vUndefined ∧
    getProfileFieldValue pJohn mFirstName.profilePath ≠ .vStr "" :=
  matchField_value_guard fieldFirstName pJohn mFirstName (by rfl)

/-- C10: an accepted match can report no provenance attribute: against
`pJohn`, the field `fieldAllAtThreshold` is matched at confidence 0.7
(above the 0.6 acceptance threshold) while every weighted attribute score
sits exactly at its reporting threshold, so `matchedOn` is none. -/
theorem matchField_accepted_no_attribute :
    matchField fieldAllAtThreshold pJohn = some mAllAtThreshold ∧
    mAllAtThreshold.confidence = 7/10 ∧
    mAllAtThreshold.confidence ≥ 3/5 ∧
    mAllAtThreshold.matchedOn = none :=
  ⟨rfl, rfl, by decide, rfl⟩

/-- C8: on malformed input (falsy profile, absent scan object, or a scan
object without its forms collection) `mapProfileToForm` returns the flagged
empty report: empty matches and unmatched lists, aggregate confidence 0,
review flag set, and the explicit error marker; well-formed input never
carries the marker, so callers can tell garbage input from a run that
merely matched nothing. -/
theorem mapProfileToForm_malformed (profile : JSValue) (formData : Option FormData)
    (h : malformedInput profile formData = true) :
    (mapProfileToForm profile formData).«matches» = [] ∧
    (mapProfileToForm profile formData).unmatchedFormFields = [] ∧
    (mapProfileToForm profile formData).unmatchedProfileFields = [] ∧
    (mapProfileToForm profile formData).overallConfidence = 0 ∧
    (mapProfileToForm profile formData).requiresReview = true ∧
    (mapProfileToForm profile formData).error = some "Invalid input data" ∧
    (∀ (p : JSValue) (fd : Option FormData), malformedInput p fd = false →
      (mapProfileToForm p fd).error = none) := by
  have hmain : ∃ u, mapProfileToForm profile formData = invalidReport u := by
    unfold malformedInput at h
    rcases formData with _ | fd
    · exact ⟨"", rfl⟩
    · rcases fd with ⟨url, _ | forms⟩
      · exact ⟨url, rfl⟩
      · have hp : profile.truthy = false := by
          rcases htr : profile.truthy
          · rfl
          · rw [htr] at h
            simp at h
        refine ⟨url, ?_⟩
        simp only [mapProfileToForm, hp]
        rfl
  obtain ⟨u, hmain⟩ := hmain
  refine ⟨by rw [hmain]; rfl, by rw [hmain]; rfl, by rw [hmain]; rfl, by rw [hmain]; rfl,
    by rw [hmain]; rfl, by rw [hmain]; rfl, ?_⟩
  intro p fd hf
  unfold malformedInput at hf
  rcases fd with _ | fd
  · simp at hf
  · rcases fd with ⟨url, _ | forms⟩
    · simp at hf
    · have hp : p.truthy = true := by
        rcases htr : p.truthy
        · rw [htr] at hf; simp at hf
        · rfl
      simp only [mapProfileToForm, hp]
      rfl

/-- Witness for C8 at a null profile and an absent scan object. -/
theorem mapProfileToForm_malformed_witness :
    (mapProfileToForm .vNull none).«matches» = [] ∧
    (mapProfileToForm .vNull none).unmatchedProfileFields = [] ∧
    (mapProfileToForm .vNull none).overallConfidence = 0 ∧
    (mapProfileToForm .vNull none).requiresReview = true ∧
    (mapProfileToForm .vNull none).error = some "Invalid input data" := by
  have h := mapProfileToForm_malformed .vNull none (by decide)
  exact ⟨h.1, h.2.2.1, h.2.2.2.1, h.2.2.2.2.1, h.2.2.2.2.2.1⟩

/-- C1 amended: a profile path consumed by an accepted match never appears
among the leftover profile paths of the same report (that is all the
consumed-path bookkeeping guards); the accepted matches themselves may
repeat a profile path. -/
theorem consumed_path_not_in_unmatchedProfileFields (profile : JSValue)
    (formData : Option FormData) (m : FieldMatch) (u : UnmatchedProfileField)
    (hm : m ∈ (mapProfileToForm profile formData).«matches»)
    (hu : u ∈ (mapProfileToForm profile formData).unmatchedProfileFields) :
    u.path ≠ m.profilePath := by
  rcases formData with _ | ⟨url, _ | forms⟩
  · simp [mapProfileToForm, invalidReport] at hm
  · simp [mapProfileToForm, invalidReport] at hm
  · cases htr : profile.truthy with
    | false => simp [mapProfileToForm, htr, invalidReport] at hm
    | true =>
      simp only [mapProfileToForm, htr, Bool.not_true, Bool.false_eq_true, if_false] at hm hu
      rcases List.mem_filterMap.mp hu with ⟨path, hpmem, hpeq⟩
      split at hpeq
      · cases hpeq
      · next hcon =>
        split at hpeq
        · cases hpeq
          intro he
          apply hcon
          have hmm : m.profilePath ∈
              (((eligibleForms forms).flatMap (fun x => x.fields)).filterMap (fun f =>
                match matchField f profile with
                | some m => if m.confidence ≥ 3/5 then some m else none
                | none => none)).map (fun x => x.profilePath) :=
            List.mem_map_of_mem _ hm
          rw [List.contains_eq_any_beq]
          refine List.any_eq_true.mpr ⟨m.profilePath, hmm, ?_⟩
          rw [← he]
          exact beq_self_eq_true _
        · cases hpeq

/-- C4 amended: the report's aggregate confidence equals the arithmetic mean
of the accepted matches' confidences rounded to the nearest hundredth
(halves up, JS `Math.round(x * 100) / 100`), and 0 when no match was
accepted. -/
theorem overallConfidence_rounded_mean (profile : JSValue) (formData : Option FormData) :
    (mapProfileToForm profile formData).overallConfidence =
      roundTo2 (if 0 < ((mapProfileToForm profile formData).«matches»).length
        then (((mapProfileToForm profile formData).«matches»).map (fun x => x.confidence)).sum /
          (((mapProfileToForm profile formData).«matches»).length : ℚ)
        else 0) := by
  have hzero : (0 : ℚ) = roundTo2 0 := by decide
  rcases formData with _ | ⟨url, _ | forms⟩
  · simpa [mapProfileToForm, invalidReport] using hzero
  · simpa [mapProfileToForm, invalidReport] using hzero
  · cases htr : profile.truthy with
    | false => simpa [mapProfileToForm, htr, invalidReport] using hzero
    | true =>
      simp only [mapProfileToForm, htr, Bool.not_true, Bool.false_eq_true, if_false]

/-- C5: acceptance is inclusive at 0.6 and review is strict below 0.8: for
a one-field form, the field's match lands in `matches` exactly when its
confidence is at least 0.6 and in `unmatchedFormFields` otherwise, the
review flag of a returned match is exactly the comparison against 0.8, and
the numeric boundaries behave as the spec demands (0.6 accepted, 0.5999
not, 0.8 not in review, 0.7999 in review). -/
theorem mapProfileToForm_thresholds (profile : JSValue) (f : FormField)
    (url fid : String) (m : FieldMatch)
    (hp : profile.truthy = true) (hm : matchField f profile = some m) :
    ((mapProfileToForm profile
        (some ⟨url, some [⟨fid, false, "standard", [f]⟩]⟩)).«matches» =
      if m.confidence ≥ 3/5 then [m] else []) ∧
    ((mapProfileToForm profile
        (some ⟨url, some [⟨fid, false, "standard", [f]⟩]⟩)).unmatchedFormFields =
      if m.confidence ≥ 3/5 then [] else [unmatchedEntry f]) ∧
    m.requiresReview = decide (m.confidence < 4/5) ∧
    ((3/5 : ℚ) ≥ 3/5 ∧ ¬((5999/10000 : ℚ) ≥ 3/5) ∧
      ¬((4/5 : ℚ) < 4/5) ∧ ((7999/10000 : ℚ) < 4/5)) := by
  refine ⟨?_, ?_, (matchField_good f profile m hm).1, by decide, by decide, by decide, by decide⟩
  · simp only [mapProfileToForm, hp, Bool.not_true, Bool.false_eq_true, if_false]
    simp only [eligibleForms, List.filter, Bool.not_false, Bool.true_and, ne_eq]
    rw [show (decide ¬("standard" : String) = "google-forms") = true from rfl]
    simp only [List.flatMap_cons, List.flatMap_nil, List.append_nil, List.filterMap_cons,
      List.filterMap_nil, hm]
    split
    · rename_i heq
      split at heq
      · exact absurd heq (by simp)
      · rename_i hcond
        rw [if_neg hcond]
    · rename_i b heq
      split at heq
      · rename_i hcond
        cases heq
        rw [if_pos hcond]
      · exact absurd heq (by simp)
  · simp only [mapProfileToForm, hp, Bool.not_true, Bool.false_eq_true, if_false]
    simp only [eligibleForms, List.filter, Bool.not_false, Bool.true_and, ne_eq]
    rw [show (decide ¬("standard" : String) = "google-forms") = true from rfl]
    simp only [List.flatMap_cons, List.flatMap_nil, List.append_nil, List.filterMap_cons,
      List.filterMap_nil, hm]
    split
    · rename_i heq
      split at heq
      · rename_i hcond
        rw [if_pos hcond]
      · exact absurd heq (by simp)
    · rename_i b heq
      split at heq
      · exact absurd heq (by simp)
      · rename_i hcond
        cases heq
        rw [if_neg hcond]

/-- C1: counterexample — two interchangeable first-name fields in one form
both claim `profile.personal.firstName`: the consumed-path set is never
consulted during matching, so the report's matches list repeats the same
profile path. -/
theorem matches_can_repeat_profilePath :
    ((mapProfileToForm pJohn (some fdDup)).«matches».map (fun x => x.profilePath)) =
      ["profile.personal.firstName", "profile.personal.firstName"] ∧
    ¬ ((mapProfileToForm pJohn (some fdDup)).«matches».map
        (fun x => x.profilePath)).Nodup := by
  have h : ((mapProfileToForm pJohn (some fdDup)).«matches».map (fun x => x.profilePath)) =
      ["profile.personal.firstName", "profile.personal.firstName"] := by rfl
  exact ⟨h, by rw [h]; decide⟩

/-- Witness for the amended C1, at the one-field scan of `pJohn`: the
consumed first-name path differs from the leftover email path. -/
theorem consumed_path_witness : uEmail.path ≠ mFirstName.profilePath :=
  consumed_path_not_in_unmatchedProfileFields pJohn (some fdSingle) mFirstName uEmail
    (by decide) (by decide)

/-- C4: counterexample — with accepted confidences 0.65 and 0.8, the exact
mean is 0.725 but the report's aggregate confidence is the rounded 0.73. -/
theorem overallConfidence_not_exact_mean :
    (mapProfileToForm pJohn (some fdPair)).«matches».map (fun x => x.confidence) =
      [13/20, 4/5] ∧
    (mapProfileToForm pJohn (some fdPair)).overallConfidence = 73/100 ∧
    ((73 : ℚ)/100 ≠ (13/20 + 4/5) / 2) :=
  ⟨by rfl, by rfl, by decide⟩

/-- Witness for C5, at the field whose best match scores exactly 0.6: it is
accepted into matches, nothing is unmatched, and its review flag is set. -/
theorem mapProfileToForm_thresholds_witness :
    (mapProfileToForm pJohn (some fdBoundary)).«matches» = [mBoundary] ∧
    (mapProfileToForm pJohn (some fdBoundary)).unmatchedFormFields = [] ∧
    mBoundary.requiresReview = true := by
  have h := mapProfileToForm_thresholds pJohn fieldBoundary
    "https://jobs.example/apply" "form1" mBoundary rfl (by rfl)
  refine ⟨?_, ?_, ?_⟩
  · rw [show (mapProfileToForm pJohn (some fdBoundary)).«matches» =
        if mBoundary.confidence ≥ 3/5 then [mBoundary] else [] from h.1]
    rw [if_pos (by decide)]
  · rw [show (mapProfileToForm pJohn (some fdBoundary)).unmatchedFormFields =
        if mBoundary.confidence ≥ 3/5 then [] else [unmatchedEntry fieldBoundary] from h.2.1]
    rw [if_pos (by decide)]
  · rw [h.2.2.1]
    decide

/-- Spaces and alphanumerics do not overlap. -/
theorem isLowerAlnum_not_space {c : Char} (h : isLowerAlnum c = true) : jsSpace c = false := by
  simp only [isLowerAlnum, Bool.or_eq_true, Bool.and_eq_true, decide_eq_true_eq] at h
  simp only [jsSpace, Bool.or_eq_false_iff, Bool.and_eq_false_iff,
    decide_eq_false_iff_not]
  omega

/-- Kept alphanumerics and the space are fixed points of `Char.toLower`. -/
theorem toLower_fixed (c : Char) (h : isLowerAlnum c = true ∨ c = ' ') :
    c.toLower = c := by
  rcases h with h | h
  · simp only [isLowerAlnum, Bool.or_eq_true, Bool.and_eq_true, decide_eq_true_eq] at h
    simp only [Char.toLower]
    rw [if_neg]
    omega
  · subst h; decide

/-- Characters emitted by the whitespace collapse: either a non-space
character of the input or the canonical space. -/
theorem collapseAux_mem : ∀ (prev : Bool) (xs : List Char) (c : Char),
    c ∈ collapseAux prev xs → (c ∈ xs ∧ jsSpace c = false) ∨ c = ' '
  | prev, [], c, h => by cases h
  | prev, x :: t, c, h => by
    unfold collapseAux at h
    by_cases hx : jsSpace x = true
    · rw [if_pos hx] at h
      cases prev with
      | true =>
        rcases collapseAux_mem true t c h with ⟨hm, hs⟩ | hsp
        · exact Or.inl ⟨List.mem_cons_of_mem x hm, hs⟩
        · exact Or.inr hsp
      | false =>
        rcases List.mem_cons.mp h with hc | h2
        · exact Or.inr hc
        · rcases collapseAux_mem true t c h2 with ⟨hm, hs⟩ | hsp
          · exact Or.inl ⟨List.mem_cons_of_mem x hm, hs⟩
          · exact Or.inr hsp
    · rw [if_neg hx] at h
      rcases List.mem_cons.mp h with hc | h2
      · subst hc
        exact Or.inl ⟨List.mem_cons_self c t, Bool.not_eq_true _ ▸ (by simpa using hx)⟩
      · rcases collapseAux_mem false t c h2 with ⟨hm, hs⟩ | hsp
        · exact Or.inl ⟨List.mem_cons_of_mem x hm, hs⟩
        · exact Or.inr hsp

/-- After a space was just emitted, the collapse never emits another space
first. -/
theorem collapseAux_true_head : ∀ (xs : List Char) (d : Char),
    (collapseAux true xs).head? = some d → jsSpace d = false
  | [], d, h => by cases h
  | x :: t, d, h => by
    unfold collapseAux at h
    by_cases hx : jsSpace x = true
    · rw [if_pos hx] at h
      exact collapseAux_true_head t d h
    · rw [if_neg hx] at h
      cases h
      simpa using hx

/-- The collapse output never holds two adjacent spaces. -/
theorem collapseAux_chain : ∀ (prev : Bool) (xs : List Char),
    List.Chain' (fun a b => ¬(jsSpace a = true ∧ jsSpace b = true)) (collapseAux prev xs)
  | prev, [] => List.chain'_nil
  | prev, x :: t => by
    unfold collapseAux
    by_cases hx : jsSpace x = true
    · rw [if_pos hx]
      cases prev with
      | true => exact collapseAux_chain true t
      | false =>
        simp only [Bool.false_eq_true, if_false]
        rw [List.chain'_cons']
        refine ⟨fun y hy => ?_, collapseAux_chain true t⟩
        intro ⟨_, hsp⟩
        rw [collapseAux_true_head t y hy] at hsp
        cases hsp
    · rw [if_neg hx]
      rw [List.chain'_cons']
      refine ⟨fun y hy => ?_, collapseAux_chain false t⟩
      intro ⟨hsp, _⟩
      exact hx hsp

/-- On a list whose spaces are canonical and non-adjacent, the collapse is
the identity. -/
theorem collapseAux_id : ∀ (xs : List Char),
    (∀ c ∈ xs, jsSpace c = true → c = ' ') →
    List.Chain' (fun a b => ¬(jsSpace a = true ∧ jsSpace b = true)) xs →
    collapseAux false xs = xs ∧
      ((∀ d, xs.head? = some d → jsSpace d = false) → collapseAux true xs = xs)
  | [], _, _ => ⟨rfl, fun _ => rfl⟩
  | x :: t, hc, hch => by
    have hcht := (List.chain'_cons'.mp hch).2
    have hpair := (List.chain'_cons'.mp hch).1
    have iht := collapseAux_id t (fun c hm hs => hc c (List.mem_cons_of_mem x hm) hs) hcht
    constructor
    · unfold collapseAux
      by_cases hx : jsSpace x = true
      · rw [if_pos hx]
        have hx' : x = ' ' := hc x (List.mem_cons_self x t) hx
        have ht : collapseAux true t = t := by
          refine iht.2 (fun d hd => ?_)
          by_cases hsd : jsSpace d = true
          · exact absurd ⟨hx, hsd⟩ (hpair d (by
              cases t with
              | nil => cases hd
              | cons a b => cases hd; exact rfl))
          · simpa using hsd
        simp only [Bool.false_eq_true, if_false]
        rw [ht, hx']
      · rw [if_neg hx, iht.1]
    · intro hhead
      unfold collapseAux
      by_cases hx : jsSpace x = true
      · exact absurd (hhead x rfl) (by simp [hx])
      · simp only [Bool.false_eq_true, if_false]
        rw [if_neg hx, iht.1]

theorem map_fixed {α : Type} (f : α → α) : ∀ (l : List α), (∀ c ∈ l, f c = c) → l.map f = l
  | [], _ => rfl
  | x :: t, h => by
    rw [List.map_cons, h x (List.mem_cons_self x t),
      map_fixed f t (fun c hm => h c (List.mem_cons_of_mem x hm))]

/-- The trimmed list is an infix of the original. -/
theorem trimChars_within (l : List Char) : trimChars l <:+: l := by
  unfold trimChars
  have h1 : l.dropWhile jsSpace <:+ l := List.dropWhile_suffix jsSpace
  have h2 : (l.dropWhile jsSpace).reverse.dropWhile jsSpace <:+
      (l.dropWhile jsSpace).reverse := List.dropWhile_suffix jsSpace
  have h3 : ((l.dropWhile jsSpace).reverse.dropWhile jsSpace).reverse <+:
      l.dropWhile jsSpace := by
    rw [← List.reverse_reverse ((l.dropWhile jsSpace).reverse.dropWhile jsSpace)] at h2
    exact List.reverse_suffix.mp h2
  exact h3.isInfix.trans h1.isInfix

/-- The character-class and adjacency invariants of normalized text. -/
theorem normalizeChars_canon (l : List Char) :
    (∀ c ∈ normalizeChars l, isLowerAlnum c = true ∨ c = ' ') ∧
    List.Chain' (fun a b => ¬(jsSpace a = true ∧ jsSpace b = true)) (normalizeChars l) := by
  unfold normalizeChars collapseWs
  constructor
  · intro c hc
    rcases collapseAux_mem false _ c hc with ⟨hmem, hnsp⟩ | hsp
    · left
      have hk : keepChar c = true := List.of_mem_filter hmem
      unfold keepChar at hk
      rcases Bool.or_eq_true _ _ |>.mp hk with h | h
      · exact h
      · rw [h] at hnsp; cases hnsp
    · right; exact hsp
  · exact collapseAux_chain false _

/-- C3 amended: the normalizer is idempotent up to a final trim — a second
normalization pass only strips the leading or trailing space that the
special-character strip can expose (and does nothing else). -/
theorem normalizeText_normalizeText (s : String) :
    normalizeText (normalizeText s) = trimString (normalizeText s) := by
  by_cases hs : s = ""
  · subst hs; decide
  · have hns : normalizeText s = String.mk (normalizeChars s.data) := by
      unfold normalizeText; rw [if_neg hs]
    rw [hns]
    by_cases hL : (String.mk (normalizeChars s.data) : String) = ""
    · have hnil : normalizeChars s.data = [] := (string_eq_empty_iff _).mp hL
      rw [hnil]; decide
    · have canon := normalizeChars_canon s.data
      set L := normalizeChars s.data with hLdef
      unfold normalizeText
      rw [if_neg hL]
      unfold trimString
      refine congrArg String.mk ?_
      show normalizeChars L = trimChars L
      unfold normalizeChars collapseWs
      have hmap : L.map Char.toLower = L :=
        map_fixed _ L (fun c hc => toLower_fixed c (canon.1 c hc))
      rw [hmap]
      have hwithin := trimChars_within L
      have hfilter : (trimChars L).filter keepChar = trimChars L := by
        rw [List.filter_eq_self]
        intro a ha
        have hmem := hwithin.subset ha
        rcases canon.1 a hmem with h | h
        · unfold keepChar; rw [h]; rfl
        · unfold keepChar; subst h; decide
      rw [hfilter]
      have hchain := List.Chain'.infix canon.2 hwithin
      exact (collapseAux_id (trimChars L)
        (fun c hm hsp => by
          rcases canon.1 c (hwithin.subset hm) with h | h
          · rw [isLowerAlnum_not_space h] at hsp; cases hsp
          · exact h)
        hchain).1

end Autofill
